import Mathlib

/-!
Shallow embedding of the mystery-adventure game (`src/main.py`).

The Python program keeps a square grid of `Room`s, each optionally holding a
`Character`, plus a player position, health, an exit coordinate and a turn
counter.  Randomness (the exit choice, the shuffle of free cells, hazard
damage) is made explicit: functions that consult the random source take the
drawn value as an argument, and theorems quantify over the admissible draws.
-/

namespace Mystery

/-- Class `Character` from `main.py`: a name, a kind (`"npc"` or `"ghost"`) and a
message string (Python defaults a missing message to `""`). -/
structure Character where
  name : String
  kind : String
  message : String
  deriving DecidableEq, Repr

/-- Method `Character.icon`: the ASCII icon, `(^_^)` for an npc and `(~_~)` otherwise. -/
def Character.icon (ch : Character) : String :=
  if ch.kind = "npc" then "(^_^)" else "(~_~)"

/-- Class `Room` from `main.py`: coordinates and an optional occupant. -/
structure Room where
  x : Int
  y : Int
  character : Option Character
  deriving DecidableEq, Repr

/-- The mutable state of a `Game` object: grid size, the `map` of rooms
(`map[y][x]`), player coordinates, health, exit coordinate and turn counter. -/
structure GameState where
  size : Nat
  grid : List (List Room)
  player_x : Int
  player_y : Int
  health : Int
  exit : Int × Int
  turn : Nat
  deriving DecidableEq, Repr

/-- The `DIRS` table of `Game`: every recognized direction token with its
delta vector `(dx, dy)`. -/
def DIRS : List (String × (Int × Int)) :=
  [("utara", (0, -1)), ("u", (0, -1)), ("n", (0, -1)),
   ("selatan", (0, 1)), ("s", (0, 1)),
   ("barat", (-1, 0)), ("b", (-1, 0)), ("w", (-1, 0)),
   ("timur", (1, 0)), ("t", (1, 0)), ("e", (1, 0))]

/-- The grid built in `Game.__init__`: `map[y][x] = Room(x, y)` with no
occupant. -/
def init_map (s : Nat) : List (List Room) :=
  (List.range s).map (fun y => (List.range s).map (fun x => Room.mk x y none))

/-- The `perimeter` list built in `Game.place_exit`: all `(x, y)` with
`x == 0 or y == 0 or x == s-1 or y == s-1`, in the loop order of the code. -/
def perimeter_cells (s : Nat) : List (Int × Int) :=
  (List.range s).flatMap (fun y =>
    (List.range s).filterMap (fun x =>
      if x = 0 ∨ y = 0 ∨ x = s - 1 ∨ y = s - 1 then
        some ((x : Int), (y : Int))
      else none))

/-- The `choices` list of `Game.place_exit`: the perimeter cells other than
the player start.  `random.choice` then draws one element from this list. -/
def place_exit_choices (s : Nat) (px py : Int) : List (Int × Int) :=
  (perimeter_cells s).filter (fun c => c ≠ (px, py))

/-- All grid coordinates, in the comprehension order of
`Game.place_characters`. -/
def all_coords (s : Nat) : List (Int × Int) :=
  (List.range s).flatMap (fun (y : Nat) => (List.range s).map (fun (x : Nat) => ((x : Int), (y : Int))))

/-- The candidate positions of `Game.place_characters` before the shuffle:
all coordinates with the player start removed, then the exit removed when
present (Python `list.remove` deletes the first occurrence, which on this
duplicate-free list is the only one; `List.erase` is a no-op when absent,
matching the guarded `remove`). -/
def char_position_pool (s : Nat) (px py : Int) (exitc : Int × Int) : List (Int × Int) :=
  (((all_coords s).erase ((px, py) : Int × Int)).erase exitc)

/-- Python `list.pop()`: the last element and the list without it, or `none`
on the empty list. -/
def popLast {α : Type} (l : List α) : Option (α × List α) :=
  match l.getLast? with
  | none => none
  | some a => some (a, l.dropLast)

/-- The placement loop of `Game.place_characters` for one name list: pop a
position off the end for each name in turn, breaking when positions run out.
Returns the name/position pairs in loop order and the leftover positions. -/
def assignNames : List String → List (Int × Int) → List (String × (Int × Int)) × List (Int × Int)
  | [], positions => ([], positions)
  | name :: rest, positions =>
    match popLast positions with
    | none => ([], positions)
    | some (p, positions') =>
      let r := assignNames rest positions'
      ((name, p) :: r.1, r.2)

/-- List `npc_names` from `Game.place_characters`. -/
def npc_names : List String := ["Pak Joko", "Mbak Sari", "Kakek Tua"]

/-- List `ghost_names` from `Game.place_characters`. -/
def ghost_names : List String := ["Hantu Kecil", "Bayangan"]

/-- Method `Game.direction_hint`: compass words from the signed delta, joined with a
space; the empty join falls back to the "nearby" string (Python `or`). -/
def direction_hint (from_pos to_pos : Int × Int) : String :=
  let dx := to_pos.1 - from_pos.1
  let dy := to_pos.2 - from_pos.2
  let parts : List String :=
    (if dy < 0 then ["utara"] else if dy > 0 then ["selatan"] else []) ++
    (if dx < 0 then ["barat"] else if dx > 0 then ["timur"] else [])
  let joined := String.intercalate " " parts
  if joined = "" then "di sekitar sini" else joined

/-- The guide message built for an npc at `p` in `Game.place_characters`. -/
def npc_message (p : Int × Int) (exitc : Int × Int) : String :=
  "Petunjuk: arah keluar kira-kira ke " ++ direction_hint p exitc ++ "."

/-- The fixed hazard flavor message of `Game.place_characters`. -/
def ghost_message : String := "Sebuah hawa dingin menyentuhmu..."

/-- Method `Game.place_characters`, given the shuffled position list: the characters
created, paired with their coordinates, npc loop first and ghost loop second. -/
def place_characters_assignments (exitc : Int × Int) (shuffled : List (Int × Int)) :
    List (Character × (Int × Int)) :=
  let npcStep := assignNames npc_names shuffled
  let ghostStep := assignNames ghost_names npcStep.2
  npcStep.1.map (fun np => (Character.mk np.1 "npc" (npc_message np.2 exitc), np.2)) ++
  ghostStep.1.map (fun np => (Character.mk np.1 "ghost" ghost_message, np.2))

/-- Python `str.lower()` as used on direction tokens: lowercase every
character (`String.toLower` does the same but by well-founded recursion,
which blocks kernel evaluation). -/
def str_lower (s : String) : String :=
  String.mk (s.data.map Char.toLower)

/-- Method `Game.in_bounds`: `0 <= x < size and 0 <= y < size`. -/
def in_bounds (g : GameState) (x y : Int) : Bool :=
  decide (0 ≤ x ∧ x < (g.size : Int) ∧ 0 ≤ y ∧ y < (g.size : Int))

/-- Method `Game.current_room`, `self.map[self.player_y][self.player_x]`; `none` when
the index is outside the stored grid (where Python would raise, which cannot
happen on the grids the constructor builds). -/
def current_room? (g : GameState) : Option Room :=
  (g.grid.get? g.player_y.toNat).bind (fun row => row.get? g.player_x.toNat)

/-- The unknown-direction message of `Game.move`. -/
def unknown_direction_msg : String :=
  "Arah tidak dikenal. Gunakan \x27utara/selatan/timur/barat\x27 atau n/s/e/w."

/-- The out-of-bounds message of `Game.move`. -/
def out_of_bounds_msg : String :=
  "Tidak bisa bergerak ke sana (batas ruangan)."

/-- Method `Game.describe_current`, with the hazard damage draw (`random.randint(1, 3)`)
passed in as `dmg`: builds the description lines and, on a ghost room, deducts
`dmg` from health.  Returns the updated state and the joined text. -/
def describe_current (g : GameState) (dmg : Int) : GameState × String :=
  match current_room? g with
  | none => (g, "")
  | some room =>
    let base := ["Kamu berada di posisi (" ++ toString room.x ++ "," ++ toString room.y ++ ")."]
    let out :=
      if (room.x, room.y) = g.exit then base ++ ["Kamu melihat sebuah pintu keluar!"]
      else base
    match room.character with
    | none => (g, String.intercalate "\n" out)
    | some ch =>
      if ch.kind = "npc" then
        (g, String.intercalate "\n"
          (out ++ [ch.icon ++ " Kamu bertemu " ++ ch.name ++ ". " ++ ch.message]))
      else
        let h := g.health - dmg
        ({ g with health := h },
         String.intercalate "\n"
           (out ++ [ch.icon ++ " " ++ ch.name ++ " muncul! " ++ ch.message,
                    ch.name ++ " mengurangi nyawamu sebanyak " ++ toString dmg ++
                      ". Nyawa: " ++ toString h]))

/-- Method `Game.move`, with the hazard damage draw passed through to
`describe_current`: lowercases the token, rejects unknown tokens and
out-of-bounds destinations, otherwise steps the player, bumps the turn
counter and describes the destination room. -/
def move (g : GameState) (direction : String) (dmg : Int) : GameState × String :=
  let d := str_lower direction
  match DIRS.lookup d with
  | none => (g, unknown_direction_msg)
  | some delta =>
    let nx := g.player_x + delta.1
    let ny := g.player_y + delta.2
    if in_bounds g nx ny then
      describe_current { g with player_x := nx, player_y := ny, turn := g.turn + 1 } dmg
    else
      (g, out_of_bounds_msg)

/-- Method `Game.is_alive`: `health > 0`. -/
def is_alive (g : GameState) : Bool :=
  decide (g.health > 0)

/-- Method `Game.is_exit`: player coordinates equal the exit coordinate. -/
def is_exit (g : GameState) : Bool :=
  decide ((g.player_x, g.player_y) = g.exit)

/-- The occupant branch of `Game.print_map`: `N` for an npc, `H` for a ghost,
`.` for an empty cell (and for an index outside the stored grid, where Python
would raise). -/
def occupant_symbol (g : GameState) (x y : Nat) : String :=
  match (g.grid.get? y).bind (fun row => row.get? x) with
  | some room =>
    match room.character with
    | some ch => if ch.kind = "npc" then "N" else "H"
    | none => "."
  | none => "."

/-- The symbol `Game.print_map` emits for cell `(x, y)`: player first, then
the exit when revealed, then an occupant, then the empty marker. -/
def cellSymbol (g : GameState) (reveal : Bool) (x y : Nat) : String :=
  if ((x : Int), (y : Int)) = (g.player_x, g.player_y) then "P"
  else if ((x : Int), (y : Int)) = g.exit ∧ reveal = true then "E"
  else occupant_symbol g x y

/-- The rows of symbols built by `Game.print_map` before joining. -/
def print_map_rows (g : GameState) (reveal : Bool) : List (List String) :=
  (List.range g.size).map (fun y => (List.range g.size).map (fun x => cellSymbol g reveal x y))

/-- Method `Game.print_map`: each row's symbols joined by spaces, rows joined by
newlines. -/
def print_map (g : GameState) (reveal : Bool) : String :=
  String.intercalate "\n" ((print_map_rows g reveal).map (String.intercalate " "))

/-- A concrete size-3 game as `Game.__init__` builds it when the random exit
draw is `(0, 0)` and no characters have been placed yet: player at the center
`(1, 1)`, health 5, turn 0. -/
def sample_game : GameState :=
  { size := 3, grid := init_map 3, player_x := 1, player_y := 1,
    health := 5, exit := (0, 0), turn := 0 }

/-- A size-3 game whose center room (the player's room) holds the ghost
"Hantu Kecil", for exercising the hazard branch of `describe_current`. -/
def ghost_game : GameState :=
  { size := 3,
    grid := [[Room.mk 0 0 none, Room.mk 1 0 none, Room.mk 2 0 none],
             [Room.mk 0 1 none,
              Room.mk 1 1 (some (Character.mk "Hantu Kecil" "ghost" ghost_message)),
              Room.mk 2 1 none],
             [Room.mk 0 2 none, Room.mk 1 2 none, Room.mk 2 2 none]],
    player_x := 1, player_y := 1, health := 5, exit := (0, 0), turn := 0 }

/-- A size-3 game whose center room (the player's room) holds the guide
"Pak Joko", for exercising the npc branch of `describe_current`. -/
def npc_game : GameState :=
  { size := 3,
    grid := [[Room.mk 0 0 none, Room.mk 1 0 none, Room.mk 2 0 none],
             [Room.mk 0 1 none,
              Room.mk 1 1 (some (Character.mk "Pak Joko" "npc" (npc_message (1, 1) (0, 0)))),
              Room.mk 2 1 none],
             [Room.mk 0 2 none, Room.mk 1 2 none, Room.mk 2 2 none]],
    player_x := 1, player_y := 1, health := 5, exit := (0, 0), turn := 0 }


/-- Modelled from the spec (section 4.1): the hint string composed from a
vertical term and a horizontal term joined by a single space, with the
"nearby" fallback when both deltas vanish.  Compared with `direction_hint`. -/
def hint_spec (dx dy : Int) : String :=
  let v := if dy < 0 then "utara" else if dy > 0 then "selatan" else ""
  let h := if dx < 0 then "barat" else if dx > 0 then "timur" else ""
  if v = "" then (if h = "" then "di sekitar sini" else h)
  else if h = "" then v else v ++ " " ++ h

/-- C6: `direction_hint` agrees with the spec composition on every pair of
coordinates, and matches the two worked examples of the spec. -/
theorem direction_hint_correct (from_pos to_pos : Int × Int) :
    direction_hint from_pos to_pos =
      hint_spec (to_pos.1 - from_pos.1) (to_pos.2 - from_pos.2) ∧
    direction_hint (1, 1) (0, 0) = "utara barat" ∧
    direction_hint (1, 1) (1, 1) = "di sekitar sini" := by
  refine ⟨?_, by decide, by decide⟩
  obtain ⟨fx, fy⟩ := from_pos
  obtain ⟨tx, ty⟩ := to_pos
  simp only [direction_hint, hint_spec]
  generalize tx - fx = dx
  generalize ty - fy = dy
  rcases lt_trichotomy dy 0 with hy | hy | hy <;>
    rcases lt_trichotomy dx 0 with hx | hx | hx <;>
      first
      | simp +decide [hx, hy, hx.asymm, hy.asymm]
      | simp +decide [hx, hy, hx.asymm]
      | simp +decide [hx, hy, hy.asymm]
      | simp +decide [hx, hy]

/-- Helper: for `2 ≤ s`, the corner `(0, 0)` is among the exit choices for
the centered player start. -/
lemma corner_mem_place_exit_choices {s : Nat} (hs : 2 ≤ s) :
    ((0 : Int), (0 : Int)) ∈ place_exit_choices s ((s / 2 : Nat) : Int) ((s / 2 : Nat) : Int) := by
  have h1 : 1 ≤ s / 2 := Nat.le_div_iff_mul_le (by norm_num) |>.2 (by omega)
  have hmem : ((0 : Int), (0 : Int)) ∈ perimeter_cells s := by
    unfold perimeter_cells
    refine List.mem_flatMap.2 ⟨0, List.mem_range.2 (by omega), ?_⟩
    refine List.mem_filterMap.2 ⟨0, List.mem_range.2 (by omega), ?_⟩
    simp
  unfold place_exit_choices
  refine List.mem_filter.2 ⟨hmem, ?_⟩
  have : ((s / 2 : Nat) : Int) ≠ 0 := by
    simpa using fun h => absurd h (by omega)
  simp only [decide_eq_true_eq, ne_eq, Prod.mk.injEq]
  intro hcontra
  exact this hcontra.1.symm

/-- C7: for every size `s ≥ 2` the choice list of `place_exit` for the
centered start is non-empty (so `random.choice` cannot fail), and whenever it
is empty the size is below 2. -/
theorem place_exit_choices_nonempty (s : Nat) :
    (2 ≤ s → place_exit_choices s ((s / 2 : Nat) : Int) ((s / 2 : Nat) : Int) ≠ []) ∧
    (place_exit_choices s ((s / 2 : Nat) : Int) ((s / 2 : Nat) : Int) = [] → s < 2) := by
  constructor
  · intro hs hnil
    exact List.not_mem_nil _ (hnil ▸ corner_mem_place_exit_choices hs)
  · intro hnil
    by_contra hcontra
    have hs : 2 ≤ s := by omega
    exact List.not_mem_nil _ (hnil ▸ corner_mem_place_exit_choices hs)

/-- Witness for C7 at sizes 3 and 1. -/
theorem place_exit_choices_nonempty_witness :
    place_exit_choices 3 ((3 / 2 : Nat) : Int) ((3 / 2 : Nat) : Int) ≠ [] ∧ (1 : Nat) < 2 :=
  ⟨(place_exit_choices_nonempty 3).1 (by norm_num),
   (place_exit_choices_nonempty 1).2 (by decide)⟩

/-- C5: on an input whose lowercasing matches no direction token, `move`
returns the instructive unknown-direction message and leaves the state
untouched. -/
theorem move_unknown_direction (g : GameState) (d : String) (dmg : Int)
    (h : DIRS.lookup (str_lower d) = none) :
    (move g d dmg).1 = g ∧ (move g d dmg).2 = unknown_direction_msg := by
  simp [move, h]

/-- Witness for C5: the token "atas" is not recognized. -/
theorem move_unknown_direction_witness :
    (move sample_game "Atas" 1).1 = sample_game ∧
    (move sample_game "Atas" 1).2 = unknown_direction_msg :=
  move_unknown_direction sample_game "Atas" 1 (by decide)

/-- Helper: `describe_current` either returns the state unchanged or only
deducts the damage from health. -/
lemma describe_current_cases (g : GameState) (dmg : Int) :
    (describe_current g dmg).1 = g ∨
    (describe_current g dmg).1 = { g with health := g.health - dmg } := by
  unfold describe_current
  cases hcr : current_room? g with
  | none => exact Or.inl rfl
  | some room =>
    cases hch : room.character with
    | none => left; simp [hch]
    | some ch =>
      by_cases hk : ch.kind = "npc"
      · left; simp [hch, hk]
      · right; simp [hch, hk]

/-- Helper: `describe_current` never touches the position, the turn counter,
the exit, the grid or the size. -/
lemma describe_current_frame (g : GameState) (dmg : Int) :
    (describe_current g dmg).1.player_x = g.player_x ∧
    (describe_current g dmg).1.player_y = g.player_y ∧
    (describe_current g dmg).1.turn = g.turn ∧
    (describe_current g dmg).1.exit = g.exit ∧
    (describe_current g dmg).1.grid = g.grid ∧
    (describe_current g dmg).1.size = g.size := by
  rcases describe_current_cases g dmg with h | h <;> rw [h] <;> exact ⟨rfl, rfl, rfl, rfl, rfl, rfl⟩

/-- Helper: a recognized in-bounds move steps the position by the delta,
bumps the turn counter and keeps every other structural field. -/
lemma move_success (g : GameState) (d : String) (dx dy dmg : Int)
    (hdir : DIRS.lookup (str_lower d) = some (dx, dy))
    (hin : in_bounds g (g.player_x + dx) (g.player_y + dy) = true) :
    (move g d dmg).1.player_x = g.player_x + dx ∧
    (move g d dmg).1.player_y = g.player_y + dy ∧
    (move g d dmg).1.turn = g.turn + 1 ∧
    (move g d dmg).1.exit = g.exit ∧
    (move g d dmg).1.grid = g.grid ∧
    (move g d dmg).1.size = g.size := by
  have hframe := describe_current_frame
    { g with player_x := g.player_x + dx, player_y := g.player_y + dy, turn := g.turn + 1 } dmg
  simp only [move, hdir, hin, if_pos]
  exact ⟨hframe.1, hframe.2.1, hframe.2.2.1, hframe.2.2.2.1, hframe.2.2.2.2.1, hframe.2.2.2.2.2⟩

/-- Helper: a recognized out-of-bounds move changes nothing and returns the
bounds message. -/
lemma move_blocked (g : GameState) (d : String) (dx dy dmg : Int)
    (hdir : DIRS.lookup (str_lower d) = some (dx, dy))
    (hin : in_bounds g (g.player_x + dx) (g.player_y + dy) = false) :
    move g d dmg = (g, out_of_bounds_msg) := by
  simp [move, hdir, hin]

/-- C1: on a recognized token from an in-bounds position, `move` either steps
the position by exactly the token delta and bumps the turn by one, or, when
the destination is out of bounds, returns the bounds message with the state
unchanged. -/
theorem move_delta_or_blocked (g : GameState) (d : String) (dx dy dmg : Int)
    (hdir : DIRS.lookup (str_lower d) = some (dx, dy))
    (_hpos : in_bounds g g.player_x g.player_y = true) :
    (in_bounds g (g.player_x + dx) (g.player_y + dy) = true ∧
       (move g d dmg).1.player_x = g.player_x + dx ∧
       (move g d dmg).1.player_y = g.player_y + dy ∧
       (move g d dmg).1.turn = g.turn + 1) ∨
    (in_bounds g (g.player_x + dx) (g.player_y + dy) = false ∧
       (move g d dmg).1 = g ∧ (move g d dmg).2 = out_of_bounds_msg) := by
  cases hin : in_bounds g (g.player_x + dx) (g.player_y + dy) with
  | true =>
    have h := move_success g d dx dy dmg hdir hin
    exact Or.inl ⟨rfl, h.1, h.2.1, h.2.2.1⟩
  | false =>
    have h := move_blocked g d dx dy dmg hdir hin
    exact Or.inr ⟨rfl, by rw [h], by rw [h]⟩

/-- Witness for C1 at the sample game: "utara" steps the player from
`(1, 1)` to `(1, 0)`. -/
theorem move_delta_or_blocked_witness :
    (in_bounds sample_game (sample_game.player_x + 0) (sample_game.player_y + -1) = true ∧
       (move sample_game "utara" 1).1.player_x = sample_game.player_x + 0 ∧
       (move sample_game "utara" 1).1.player_y = sample_game.player_y + -1 ∧
       (move sample_game "utara" 1).1.turn = sample_game.turn + 1) ∨
    (in_bounds sample_game (sample_game.player_x + 0) (sample_game.player_y + -1) = false ∧
       (move sample_game "utara" 1).1 = sample_game ∧
       (move sample_game "utara" 1).2 = out_of_bounds_msg) :=
  move_delta_or_blocked sample_game "utara" 0 (-1) 1 (by decide) (by decide)

/-- Helper: on a ghost room, `describe_current` deducts exactly the damage. -/
lemma describe_current_ghost (g : GameState) (dmg : Int) (room : Room) (ch : Character)
    (hroom : current_room? g = some room) (hch : room.character = some ch)
    (hk : ch.kind ≠ "npc") :
    (describe_current g dmg).1 = { g with health := g.health - dmg } := by
  simp [describe_current, hroom, hch, hk]

/-- C3: neither `move` nor `describe_current` ever increases health; a ghost
encounter deducts exactly the drawn damage, which for draws in `[1, 3]`
strictly decreases health; and `is_alive` holds exactly when health is
positive. -/
theorem health_monotone (g : GameState) (d : String) (dmg : Int)
    (h1 : 1 ≤ dmg) (_h3 : dmg ≤ 3) :
    (move g d dmg).1.health ≤ g.health ∧
    (describe_current g dmg).1.health ≤ g.health ∧
    (∀ room ch, current_room? g = some room → room.character = some ch →
       ch.kind = "ghost" →
       (describe_current g dmg).1.health = g.health - dmg ∧
       (describe_current g dmg).1.health < g.health) ∧
    (is_alive g = true ↔ g.health > 0) := by
  have hdesc : ∀ g0 : GameState, (describe_current g0 dmg).1.health ≤ g0.health := by
    intro g0
    rcases describe_current_cases g0 dmg with h | h
    · exact le_of_eq (congrArg GameState.health h)
    · rw [h]
      show g0.health - dmg ≤ g0.health
      omega
  refine ⟨?_, hdesc g, ?_, by simp [is_alive]⟩
  · rcases hdir : DIRS.lookup (str_lower d) with _ | ⟨dx, dy⟩
    · simp [move, hdir]
    · cases hin : in_bounds g (g.player_x + dx) (g.player_y + dy) with
      | true =>
        have hb := hdesc { g with player_x := g.player_x + dx,
                                  player_y := g.player_y + dy, turn := g.turn + 1 }
        simpa [move, hdir, hin] using hb
      | false => simp [move, hdir, hin]
  · intro room ch hroom hch hk
    have h := describe_current_ghost g dmg room ch hroom hch (by rw [hk]; decide)
    rw [h]
    constructor
    · rfl
    · show g.health - dmg < g.health
      omega

/-- Witness for C3 at the ghost game with damage draw 2. -/
theorem health_monotone_witness :
    (move ghost_game "q" 2).1.health ≤ ghost_game.health ∧
    (describe_current ghost_game 2).1.health = ghost_game.health - 2 := by
  have h := health_monotone ghost_game "q" 2 (by decide) (by decide)
  refine ⟨h.1, ?_⟩
  exact (h.2.2.1 (Room.mk 1 1 (some (Character.mk "Hantu Kecil" "ghost" ghost_message)))
    (Character.mk "Hantu Kecil" "ghost" ghost_message) (by decide) rfl rfl).1

/-- C10: `move` and `describe_current` leave the grid size, the room grid
(hence every occupant and character) and the exit untouched;
`describe_current` moreover changes nothing at all unless the current room
holds a non-npc character. -/
theorem move_frame_effects (g : GameState) (d : String) (dmg : Int) :
    ((move g d dmg).1.size = g.size ∧ (move g d dmg).1.grid = g.grid ∧
       (move g d dmg).1.exit = g.exit) ∧
    ((describe_current g dmg).1.size = g.size ∧
       (describe_current g dmg).1.grid = g.grid ∧
       (describe_current g dmg).1.exit = g.exit ∧
       (describe_current g dmg).1.player_x = g.player_x ∧
       (describe_current g dmg).1.player_y = g.player_y ∧
       (describe_current g dmg).1.turn = g.turn) ∧
    (∀ room, current_room? g = some room →
       (∀ ch, room.character = some ch → ch.kind = "npc") →
       (describe_current g dmg).1 = g) := by
  have hdf := describe_current_frame g dmg
  refine ⟨?_, ⟨hdf.2.2.2.2.2, hdf.2.2.2.2.1, hdf.2.2.2.1, hdf.1, hdf.2.1, hdf.2.2.1⟩, ?_⟩
  · rcases hdir : DIRS.lookup (str_lower d) with _ | ⟨dx, dy⟩
    · simp [move, hdir]
    · cases hin : in_bounds g (g.player_x + dx) (g.player_y + dy) with
      | true =>
        have h := move_success g d dx dy dmg hdir hin
        exact ⟨h.2.2.2.2.2, h.2.2.2.2.1, h.2.2.2.1⟩
      | false =>
        rw [move_blocked g d dx dy dmg hdir hin]
        exact ⟨rfl, rfl, rfl⟩
  · intro room hroom hnpc
    cases hch : room.character with
    | none => simp [describe_current, hroom, hch]
    | some ch => simp [describe_current, hroom, hch, hnpc ch hch]

/-- Witness for C10 at the npc game: meeting a guide changes nothing. -/
theorem move_frame_effects_witness :
    (move npc_game "utara" 2).1.exit = npc_game.exit ∧
    (describe_current npc_game 2).1 = npc_game := by
  have h := move_frame_effects npc_game "utara" 2
  refine ⟨h.1.2.2, ?_⟩
  refine h.2.2 (Room.mk 1 1 (some (Character.mk "Pak Joko" "npc" (npc_message (1, 1) (0, 0)))))
    (by decide) ?_
  intro ch hch
  have : Character.mk "Pak Joko" "npc" (npc_message (1, 1) (0, 0)) = ch := by
    simpa using hch
  rw [← this]

/-- C8: from a size-3 game with the player at the center `(1, 1)` and the
exit at `(0, 0)`, moving "utara" then "barat" puts the player on `(0, 0)`
and `is_exit` reports true, whatever the damage draws were. -/
theorem two_moves_reach_exit (g : GameState) (dmg1 dmg2 : Int)
    (hs : g.size = 3) (hx : g.player_x = 1) (hy : g.player_y = 1)
    (he : g.exit = (0, 0)) :
    (move (move g "utara" dmg1).1 "barat" dmg2).1.player_x = 0 ∧
    (move (move g "utara" dmg1).1 "barat" dmg2).1.player_y = 0 ∧
    is_exit (move (move g "utara" dmg1).1 "barat" dmg2).1 = true := by
  have hd1 : DIRS.lookup (str_lower "utara") = some (0, -1) := by decide
  have hd2 : DIRS.lookup (str_lower "barat") = some (-1, 0) := by decide
  have hin1 : in_bounds g (g.player_x + 0) (g.player_y + -1) = true := by
    unfold in_bounds
    rw [hs, hx, hy]
    decide
  have h1 := move_success g "utara" 0 (-1) dmg1 hd1 hin1
  have hin2 : in_bounds (move g "utara" dmg1).1
      ((move g "utara" dmg1).1.player_x + -1) ((move g "utara" dmg1).1.player_y + 0) = true := by
    unfold in_bounds
    rw [h1.1, h1.2.1, h1.2.2.2.2.2, hs, hx, hy]
    decide
  have h2 := move_success (move g "utara" dmg1).1 "barat" (-1) 0 dmg2 hd2 hin2
  have hpx : (move (move g "utara" dmg1).1 "barat" dmg2).1.player_x = 0 := by
    rw [h2.1, h1.1, hx]; ring
  have hpy : (move (move g "utara" dmg1).1 "barat" dmg2).1.player_y = 0 := by
    rw [h2.2.1, h1.2.1, hy]; ring
  have hex : (move (move g "utara" dmg1).1 "barat" dmg2).1.exit = (0, 0) := by
    rw [h2.2.2.2.1, h1.2.2.2.1, he]
  refine ⟨hpx, hpy, ?_⟩
  simp [is_exit, hpx, hpy, hex]

/-- Witness for C8 at the sample game. -/
theorem two_moves_reach_exit_witness :
    (move (move sample_game "utara" 1).1 "barat" 1).1.player_x = 0 ∧
    (move (move sample_game "utara" 1).1 "barat" 1).1.player_y = 0 ∧
    is_exit (move (move sample_game "utara" 1).1 "barat" 1).1 = true :=
  two_moves_reach_exit sample_game 1 1 rfl rfl rfl rfl

/-- Helper: `move` never changes the exit coordinate. -/
lemma move_preserves_exit (g : GameState) (d : String) (dmg : Int) :
    (move g d dmg).1.exit = g.exit := by
  rcases hdir : DIRS.lookup (str_lower d) with _ | ⟨dx, dy⟩
  · simp [move, hdir]
  · cases hin : in_bounds g (g.player_x + dx) (g.player_y + dy) with
    | true => exact (move_success g d dx dy dmg hdir hin).2.2.2.1
    | false => rw [move_blocked g d dx dy dmg hdir hin]

/-- C2: every candidate the exit draw can return for a size `s ≥ 2` grid
with the centered start lies on the perimeter and differs from the start,
and no operation ever reassigns the exit afterwards. -/
theorem exit_on_perimeter (s : Nat) (c : Int × Int) (hs : 2 ≤ s)
    (hc : c ∈ place_exit_choices s ((s / 2 : Nat) : Int) ((s / 2 : Nat) : Int)) :
    (c.1 = 0 ∨ c.2 = 0 ∨ c.1 = (s : Int) - 1 ∨ c.2 = (s : Int) - 1) ∧
    c ≠ (((s / 2 : Nat) : Int), ((s / 2 : Nat) : Int)) ∧
    (∀ g : GameState, ∀ d dmg, g.exit = c →
       (move g d dmg).1.exit = c ∧ (describe_current g dmg).1.exit = c) := by
  obtain ⟨hper, hne⟩ := List.mem_filter.1 hc
  refine ⟨?_, by simpa using hne, ?_⟩
  · obtain ⟨y, -, hy⟩ := List.mem_flatMap.1 hper
    obtain ⟨x, -, hx⟩ := List.mem_filterMap.1 hy
    by_cases hcond : x = 0 ∨ y = 0 ∨ x = s - 1 ∨ y = s - 1
    · rw [if_pos hcond] at hx
      have hc1 : c.1 = (x : Int) := by rw [← Option.some.inj hx]
      have hc2 : c.2 = (y : Int) := by rw [← Option.some.inj hx]
      rcases hcond with h | h | h | h
      · exact Or.inl (by rw [hc1, h]; rfl)
      · exact Or.inr (Or.inl (by rw [hc2, h]; rfl))
      · refine Or.inr (Or.inr (Or.inl ?_))
        rw [hc1, h]
        omega
      · refine Or.inr (Or.inr (Or.inr ?_))
        rw [hc2, h]
        omega
    · rw [if_neg hcond] at hx
      exact absurd hx (by simp)
  · intro g d dmg hexit
    exact ⟨by rw [move_preserves_exit, hexit], by rw [(describe_current_frame g dmg).2.2.2.1, hexit]⟩

/-- Witness for C2: the corner `(0, 0)` as drawn exit of the size-3 game. -/
theorem exit_on_perimeter_witness :
    (((0 : Int), (0 : Int)).1 = 0 ∨ ((0 : Int), (0 : Int)).2 = 0 ∨
       ((0 : Int), (0 : Int)).1 = ((3 : Nat) : Int) - 1 ∨
       ((0 : Int), (0 : Int)).2 = ((3 : Nat) : Int) - 1) ∧
    ((0 : Int), (0 : Int)) ≠ (((3 / 2 : Nat) : Int), ((3 / 2 : Nat) : Int)) ∧
    (∀ g : GameState, ∀ d dmg, g.exit = ((0 : Int), (0 : Int)) →
       (move g d dmg).1.exit = ((0 : Int), (0 : Int)) ∧
       (describe_current g dmg).1.exit = ((0 : Int), (0 : Int))) :=
  exit_on_perimeter 3 ((0 : Int), (0 : Int)) (by norm_num) (by decide)

/-- Helper: the occupant branch never yields the player or exit symbol. -/
lemma occupant_symbol_ne (g : GameState) (x y : Nat) :
    occupant_symbol g x y ≠ "P" ∧ occupant_symbol g x y ≠ "E" := by
  unfold occupant_symbol
  rcases (g.grid.get? y).bind (fun row => row.get? x) with _ | ⟨rx, ry, rc⟩
  · exact ⟨by decide, by decide⟩
  · rcases rc with _ | ch
    · show ("." : String) ≠ "P" ∧ ("." : String) ≠ "E"
      exact ⟨by decide, by decide⟩
    · show (if ch.kind = "npc" then "N" else "H") ≠ "P" ∧
        (if ch.kind = "npc" then "N" else "H") ≠ "E"
      by_cases hk : ch.kind = "npc"
      · rw [if_pos hk]; exact ⟨by decide, by decide⟩
      · rw [if_neg hk]; exact ⟨by decide, by decide⟩

/-- Helper: the player symbol appears exactly on the player cell. -/
lemma cellSymbol_eq_P_iff (g : GameState) (r : Bool) (x y : Nat) :
    cellSymbol g r x y = "P" ↔ ((x : Int) = g.player_x ∧ (y : Int) = g.player_y) := by
  unfold cellSymbol
  split_ifs with h1 h2
  · simp only [Prod.mk.injEq] at h1
    simp [h1]
  · constructor
    · intro h; exact absurd h (by decide)
    · intro h; exact absurd (Prod.ext h.1 h.2) h1
  · constructor
    · intro h; exact absurd h (occupant_symbol_ne g x y).1
    · intro h; exact absurd (Prod.ext h.1 h.2) h1

/-- Helper: the exit symbol appears only with `reveal` set, on the exit cell,
never on the player cell. -/
lemma cellSymbol_eq_E (g : GameState) (r : Bool) (x y : Nat)
    (h : cellSymbol g r x y = "E") :
    r = true ∧ ((x : Int), (y : Int)) = g.exit ∧
    ((x : Int), (y : Int)) ≠ (g.player_x, g.player_y) := by
  unfold cellSymbol at h
  split_ifs at h with h1 h2
  · exact absurd h (by decide)
  · exact ⟨h2.2, h2.1, h1⟩
  · exact absurd h (occupant_symbol_ne g x y).2

/-- Helper: occurrence count of `k` in `List.range n`. -/
lemma count_range_eq (k n : Nat) :
    (List.range n).count k = if k < n then 1 else 0 := by
  induction n with
  | zero => simp
  | succ n ih =>
    rw [List.range_succ, List.count_append, ih, List.count_singleton]
    by_cases h : n = k
    · subst h
      simp [Nat.lt_succ_self]
    · rw [show (n == k) = false by simpa using h]
      by_cases hk : k < n
      · simp [hk, show k < n + 1 by omega]
      · simp [hk, show ¬ k < n + 1 by omega]

/-- Helper: in `List.range n` at most one entry casts to a given integer. -/
lemma countP_cast_le_one (e : Int) (n : Nat) :
    (List.range n).countP (fun (x : Nat) => decide ((x : Int) = e)) ≤ 1 := by
  by_cases he : 0 ≤ e
  · have hcongr : ∀ x ∈ List.range n, (decide ((x : Int) = e) = true) ↔ ((x == e.toNat) = true) := by
      intro x hx
      simp only [decide_eq_true_eq, beq_iff_eq]
      omega
    rw [List.countP_congr hcongr, ← List.count_eq_countP, count_range_eq]
    split <;> omega
  · have : (List.range n).countP (fun (x : Nat) => decide ((x : Int) = e)) = 0 := by
      rw [List.countP_eq_zero]
      intro x hx
      simp only [decide_eq_true_eq]
      omega
    omega

/-- Helper: in `List.range n` exactly one entry casts to an integer in
`[0, n)`. -/
lemma countP_cast_eq_one (e : Int) (n : Nat) (h0 : 0 ≤ e) (hn : e < (n : Int)) :
    (List.range n).countP (fun (x : Nat) => decide ((x : Int) = e)) = 1 := by
  have hcongr : ∀ x ∈ List.range n, (decide ((x : Int) = e) = true) ↔ ((x == e.toNat) = true) := by
    intro x hx
    simp only [decide_eq_true_eq, beq_iff_eq]
    omega
  rw [List.countP_congr hcongr, ← List.count_eq_countP, count_range_eq, if_pos (by omega)]

/-- Helper: summing an indicator over a range is counting. -/
lemma sum_ite_eq_countP (e : Int) (n : Nat) :
    ((List.range n).map (fun (y : Nat) => if (y : Int) = e then (1 : Nat) else 0)).sum =
      (List.range n).countP (fun (y : Nat) => decide ((y : Int) = e)) := by
  induction n with
  | zero => simp
  | succ n ih =>
    rw [List.range_succ, List.map_append, List.sum_append, List.countP_append, ih]
    by_cases h : (n : Int) = e
    · simp [h]
    · simp [h]

/-- Helper: one row of `print_map` holds the player symbol exactly when it is
the player row (for an in-bounds player column). -/
lemma row_count_P (g : GameState) (r : Bool) (y : Nat)
    (h0 : 0 ≤ g.player_x) (h1 : g.player_x < (g.size : Int)) :
    ((List.range g.size).map (fun x => cellSymbol g r x y)).count "P" =
      if (y : Int) = g.player_y then 1 else 0 := by
  rw [List.count_eq_countP, List.countP_map]
  by_cases hy : (y : Int) = g.player_y
  · rw [if_pos hy]
    have hcongr : ∀ x ∈ List.range g.size,
        (((fun s => s == "P") ∘ (fun x => cellSymbol g r x y)) x = true) ↔
          ((fun (x : Nat) => decide ((x : Int) = g.player_x)) x = true) := by
      intro x hx
      simp only [Function.comp_apply, beq_iff_eq, decide_eq_true_eq]
      rw [cellSymbol_eq_P_iff]
      exact ⟨fun h => h.1, fun h => ⟨h, hy⟩⟩
    rw [List.countP_congr hcongr]
    exact countP_cast_eq_one g.player_x g.size h0 h1
  · rw [if_neg hy, List.countP_eq_zero]
    intro x hx
    simp only [Function.comp_apply, beq_iff_eq]
    rw [cellSymbol_eq_P_iff]
    exact fun h => hy h.2

/-- Helper: one row of `print_map` holds at most one exit symbol, and only on
the exit row. -/
lemma row_count_E (g : GameState) (r : Bool) (y : Nat) :
    ((List.range g.size).map (fun x => cellSymbol g r x y)).count "E" ≤
      if (y : Int) = g.exit.2 then 1 else 0 := by
  rw [List.count_eq_countP, List.countP_map]
  by_cases hy : (y : Int) = g.exit.2
  · rw [if_pos hy]
    refine le_trans (List.countP_mono_left (fun x hx => ?_)) (countP_cast_le_one g.exit.1 g.size)
    simp only [Function.comp_apply, beq_iff_eq, decide_eq_true_eq]
    intro h
    have := (cellSymbol_eq_E g r x y h).2.1
    rw [← this]
  · rw [if_neg hy]
    have : (List.range g.size).countP
        ((fun s => s == "E") ∘ (fun x => cellSymbol g r x y)) = 0 := by
      rw [List.countP_eq_zero]
      intro x hx
      simp only [Function.comp_apply, beq_iff_eq]
      intro h
      exact hy (congrArg Prod.snd (cellSymbol_eq_E g r x y h).2.1)
    omega

/-- C4: for an in-bounds player, the rendered map has exactly `size` rows of
exactly `size` symbols, `print_map` joins them with spaces and newlines,
exactly one cell is the player symbol (on the player cell, which wins over
every other symbol), at most one cell is the exit symbol, and the exit symbol
occurs only with `reveal` set, only on the exit cell. -/
theorem print_map_shape (g : GameState) (r : Bool)
    (hx0 : 0 ≤ g.player_x) (hx1 : g.player_x < (g.size : Int))
    (hy0 : 0 ≤ g.player_y) (hy1 : g.player_y < (g.size : Int)) :
    print_map g r =
      String.intercalate "\n" ((print_map_rows g r).map (String.intercalate " ")) ∧
    (print_map_rows g r).length = g.size ∧
    (∀ row ∈ print_map_rows g r, row.length = g.size) ∧
    (print_map_rows g r).flatten.count "P" = 1 ∧
    cellSymbol g r g.player_x.toNat g.player_y.toNat = "P" ∧
    (print_map_rows g r).flatten.count "E" ≤ 1 ∧
    (∀ x y : Nat, cellSymbol g r x y = "E" →
       r = true ∧ ((x : Int), (y : Int)) = g.exit ∧
       ((x : Int), (y : Int)) ≠ (g.player_x, g.player_y)) := by
  refine ⟨rfl, by simp [print_map_rows], ?_, ?_, ?_, ?_,
    fun x y h => cellSymbol_eq_E g r x y h⟩
  · intro row hrow
    obtain ⟨y, hy, rfl⟩ := List.mem_map.1 hrow
    simp
  · rw [List.count_flatten]
    unfold print_map_rows
    simp only [List.map_map, Function.comp_def]
    rw [List.map_congr_left (fun y _ => row_count_P g r y hx0 hx1)]
    rw [sum_ite_eq_countP]
    exact countP_cast_eq_one g.player_y g.size hy0 hy1
  · rw [cellSymbol_eq_P_iff]
    constructor <;> omega
  · rw [List.count_flatten]
    unfold print_map_rows
    simp only [List.map_map, Function.comp_def]
    refine le_trans (List.sum_le_sum (fun y _ => row_count_E g r y)) ?_
    rw [sum_ite_eq_countP]
    exact countP_cast_le_one g.exit.2 g.size

/-- Witness for C4 at the sample game with the exit revealed. -/
theorem print_map_shape_witness :
    (print_map_rows sample_game true).length = sample_game.size ∧
    (print_map_rows sample_game true).flatten.count "P" = 1 ∧
    (print_map_rows sample_game true).flatten.count "E" ≤ 1 := by
  have h := print_map_shape sample_game true (by decide) (by decide) (by decide) (by decide)
  exact ⟨h.2.1, h.2.2.2.1, h.2.2.2.2.2.1⟩

/-- Helper: the coordinate list of the grid has no duplicates. -/
lemma all_coords_nodup (s : Nat) : (all_coords s).Nodup := by
  unfold all_coords
  rw [List.nodup_flatMap]
  constructor
  · intro y hy
    refine List.Nodup.map ?_ (List.nodup_range s)
    intro a b hab
    simpa using congrArg Prod.fst hab
  · refine List.Pairwise.imp ?_ (List.pairwise_lt_range s)
    intro y1 y2 hlt p hp1 hp2
    obtain ⟨x1, -, rfl⟩ := List.mem_map.1 hp1
    obtain ⟨x2, -, h⟩ := List.mem_map.1 hp2
    have : (y2 : Int) = (y1 : Int) := congrArg Prod.snd h
    omega

/-- Helper: the shuffled pool has no duplicates, sits inside the grid, and
contains neither the player start nor the exit. -/
lemma char_position_pool_spec (s : Nat) (px py : Int) (exitc : Int × Int) :
    (char_position_pool s px py exitc).Nodup ∧
    char_position_pool s px py exitc ⊆ all_coords s ∧
    ((px, py) : Int × Int) ∉ char_position_pool s px py exitc ∧
    exitc ∉ char_position_pool s px py exitc := by
  have hall := all_coords_nodup s
  have h1 : ((all_coords s).erase ((px, py) : Int × Int)).Nodup := hall.erase _
  refine ⟨h1.erase _, ?_, ?_, h1.not_mem_erase⟩
  · intro p hp
    exact (List.erase_sublist _ _).subset ((List.erase_sublist _ _).subset hp)
  · intro hp
    exact hall.not_mem_erase ((List.erase_sublist _ _).subset hp)

/-- Helper: the assignment loop consumes positions from the end of the list:
the leftover followed by the reversed assigned positions is the input, and it
assigns one position per name until either runs out. -/
lemma assignNames_decomp : ∀ (names : List String) (l : List (Int × Int)),
    (assignNames names l).2 ++ ((assignNames names l).1.map Prod.snd).reverse = l ∧
    (assignNames names l).1.length = min names.length l.length
  | [], l => by simp [assignNames]
  | name :: rest, l => by
    cases hp : popLast l with
    | none =>
      have hl : l = [] := by
        unfold popLast at hp
        cases hg : l.getLast? with
        | none => exact List.getLast?_eq_none_iff.1 hg
        | some a => rw [hg] at hp; exact absurd hp (by simp)
      subst hl
      simp [assignNames, popLast]
    | some pa =>
      obtain ⟨p, l'⟩ := pa
      have hps : l.getLast? = some p ∧ l' = l.dropLast := by
        unfold popLast at hp
        cases hg : l.getLast? with
        | none => rw [hg] at hp; exact absurd hp (by simp)
        | some a =>
          rw [hg] at hp
          have h2 := Option.some.inj hp
          exact ⟨congrArg (fun q => some q.1) h2, (congrArg Prod.snd h2).symm⟩
      obtain ⟨ys, hys⟩ := List.getLast?_eq_some_iff.1 hps.1
      have hl' : l' = ys := by rw [hps.2, hys, List.dropLast_concat]
      subst hl'
      have ih := assignNames_decomp rest l'
      show ((assignNames (name :: rest) l).2 ++
        ((assignNames (name :: rest) l).1.map Prod.snd).reverse = l ∧ _)
      rw [show assignNames (name :: rest) l =
            ((name, p) :: (assignNames rest l').1, (assignNames rest l').2) by
          rw [assignNames, hp]]
      constructor
      · rw [List.map_cons, List.reverse_cons, ← List.append_assoc, ih.1, ← hys]
      · have hlen : l.length = l'.length + 1 := by rw [hys]; simp
        have ihlen := ih.2
        simp only [List.length_cons, hlen]
        omega

/-- Helper: the coordinates of the placed characters, in placement order. -/
lemma place_characters_snd (exitc : Int × Int) (shuffled : List (Int × Int)) :
    (place_characters_assignments exitc shuffled).map Prod.snd =
      (assignNames npc_names shuffled).1.map Prod.snd ++
      (assignNames ghost_names (assignNames npc_names shuffled).2).1.map Prod.snd := by
  unfold place_characters_assignments
  rw [List.map_append, List.map_map, List.map_map]
  rfl

/-- C9: for any shuffle of the pool (grid minus start minus exit),
`place_characters` assigns only pool coordinates (never the start or exit),
pairwise distinct so every occupied cell holds exactly one character, placing
all guides before all hazards, and stops early exactly when positions run
out. -/
theorem place_characters_correct (s : Nat) (px py : Int) (exitc : Int × Int)
    (shuffled : List (Int × Int))
    (hperm : shuffled.Perm (char_position_pool s px py exitc)) :
    (∀ cp ∈ place_characters_assignments exitc shuffled,
       cp.2 ∈ all_coords s ∧ cp.2 ≠ (px, py) ∧ cp.2 ≠ exitc) ∧
    ((place_characters_assignments exitc shuffled).map Prod.snd).Nodup ∧
    (place_characters_assignments exitc shuffled).length =
      min (npc_names.length + ghost_names.length) shuffled.length ∧
    (∃ k m, (place_characters_assignments exitc shuffled).map (fun cp => cp.1.kind) =
       List.replicate k "npc" ++ List.replicate m "ghost") := by
  obtain ⟨hpool_nd, hpool_sub, hpool_start, hpool_exit⟩ :=
    char_position_pool_spec s px py exitc
  have hshuffled_nd : shuffled.Nodup := (hperm.symm).nodup hpool_nd
  obtain ⟨hdec1, hlen1⟩ := assignNames_decomp npc_names shuffled
  obtain ⟨hdec2, hlen2⟩ :=
    assignNames_decomp ghost_names (assignNames npc_names shuffled).2
  have hflat : (assignNames ghost_names (assignNames npc_names shuffled).2).2 ++
      (((assignNames ghost_names (assignNames npc_names shuffled).2).1.map Prod.snd).reverse ++
        ((assignNames npc_names shuffled).1.map Prod.snd).reverse) = shuffled := by
    rw [← List.append_assoc, hdec2, hdec1]
  have hXsub : (((assignNames ghost_names (assignNames npc_names shuffled).2).1.map Prod.snd).reverse ++
      ((assignNames npc_names shuffled).1.map Prod.snd).reverse).Sublist shuffled := by
    have h := List.sublist_append_right
      (assignNames ghost_names (assignNames npc_names shuffled).2).2
      (((assignNames ghost_names (assignNames npc_names shuffled).2).1.map Prod.snd).reverse ++
        ((assignNames npc_names shuffled).1.map Prod.snd).reverse)
    rw [hflat] at h
    exact h
  have hXperm : (((assignNames ghost_names (assignNames npc_names shuffled).2).1.map Prod.snd).reverse ++
      ((assignNames npc_names shuffled).1.map Prod.snd).reverse).Perm
      ((assignNames npc_names shuffled).1.map Prod.snd ++
        (assignNames ghost_names (assignNames npc_names shuffled).2).1.map Prod.snd) :=
    (((assignNames ghost_names (assignNames npc_names shuffled).2).1.map Prod.snd).reverse_perm.append
      ((assignNames npc_names shuffled).1.map Prod.snd).reverse_perm).trans
      List.perm_append_comm
  have hsnd_sub : ∀ p, p ∈ (place_characters_assignments exitc shuffled).map Prod.snd →
      p ∈ char_position_pool s px py exitc := by
    intro p hp
    rw [place_characters_snd] at hp
    exact hperm.subset (hXsub.subset (hXperm.symm.subset hp))
  refine ⟨?_, ?_, ?_, ?_⟩
  · intro cp hcp
    have hpmem : cp.2 ∈ char_position_pool s px py exitc :=
      hsnd_sub cp.2 (List.mem_map_of_mem Prod.snd hcp)
    exact ⟨hpool_sub hpmem,
      fun h => hpool_start (h ▸ hpmem),
      fun h => hpool_exit (h ▸ hpmem)⟩
  · rw [place_characters_snd]
    exact hXperm.nodup (hXsub.nodup hshuffled_nd)
  · have hlen : (place_characters_assignments exitc shuffled).length =
        (assignNames npc_names shuffled).1.length +
          (assignNames ghost_names (assignNames npc_names shuffled).2).1.length := by
      unfold place_characters_assignments
      simp
    have hrem : (assignNames npc_names shuffled).2.length +
        (assignNames npc_names shuffled).1.length = shuffled.length := by
      have := congrArg List.length hdec1
      simpa using this
    rw [hlen, hlen1, hlen2]
    simp only [npc_names, ghost_names, List.length_cons, List.length_nil] at *
    omega
  · refine ⟨(assignNames npc_names shuffled).1.length,
      (assignNames ghost_names (assignNames npc_names shuffled).2).1.length, ?_⟩
    unfold place_characters_assignments
    rw [List.map_append, List.map_map, List.map_map]
    rw [show ((fun cp : Character × (Int × Int) => cp.1.kind) ∘
          (fun np : String × (Int × Int) =>
            (Character.mk np.1 "npc" (npc_message np.2 exitc), np.2))) =
        (fun np : String × (Int × Int) => "npc") from rfl]
    rw [show ((fun cp : Character × (Int × Int) => cp.1.kind) ∘
          (fun np : String × (Int × Int) => (Character.mk np.1 "ghost" ghost_message, np.2))) =
        (fun np : String × (Int × Int) => "ghost") from rfl]
    rw [List.map_const', List.map_const']

/-- Witness for C9: the size-3 pool itself as the shuffle, with exit
`(0, 0)` and the centered start. -/
theorem place_characters_correct_witness :
    (∀ cp ∈ place_characters_assignments (0, 0) (char_position_pool 3 1 1 (0, 0)),
       cp.2 ∈ all_coords 3 ∧ cp.2 ≠ (1, 1) ∧ cp.2 ≠ (0, 0)) ∧
    ((place_characters_assignments (0, 0) (char_position_pool 3 1 1 (0, 0))).map Prod.snd).Nodup ∧
    (place_characters_assignments (0, 0) (char_position_pool 3 1 1 (0, 0))).length =
      min (npc_names.length + ghost_names.length) (char_position_pool 3 1 1 (0, 0)).length ∧
    (∃ k m, (place_characters_assignments (0, 0) (char_position_pool 3 1 1 (0, 0))).map
        (fun cp => cp.1.kind) = List.replicate k "npc" ++ List.replicate m "ghost") :=
  place_characters_correct 3 1 1 (0, 0) (char_position_pool 3 1 1 (0, 0)) (List.Perm.refl _)

end Mystery
